import Mathlib

/-!
# Verification of the cf_ai_aieditor file coordinator and build runner

Shallow embedding of the two stateful subsystems of the repository:

* `ProjectManager` (src/project-manager.ts): a per-project coordinator keeping
  a relational metadata store (SQLite tables `projects` and `files`) in sync
  with a key-addressed content store (R2, keyed `projectId/path`).
* `BuildRunner` (the build Durable Object): an in-memory map of build records
  driven through an install/build/deploy pipeline with an asynchronous
  background task and a cancel operation.
* the `moveFile` AI tool (code-tools), which moves a file by operating on the
  content store directly and then calling the ProjectManager over HTTP.

Modelling conventions:
* machine clocks (`Date.now()`) and fresh ids (`crypto.randomUUID()`) are
  explicit parameters;
* the ISO-timestamp that the source interpolates in front of every log line is
  abstracted away: a log entry is modelled by its message text;
* JavaScript `JSON.parse` is a platform builtin, not repository code; it is
  modelled by an explicit parameter `parseJson : String → Except String Pkg`
  returning either the fields of the manifest that the source reads (the names
  of the entries of `dependencies` and `devDependencies`) or the stringified
  `SyntaxError`;
* R2 buckets and JavaScript `Map`s are association lists with unique keys and
  in-place overwrite, preserving insertion order exactly as JS `Map` does.
-/

-- Decidable equality for `Except` results, used to evaluate concrete runs.
deriving instance DecidableEq for Except

/-! ## Content store (R2) and JS Map primitives

Both the R2 bucket and the JS `Map`s of the source are key-addressed stores
with put/get/delete and in-place overwrite; one generic association-list model
serves both. -/

/-- `m.set key v`: overwrite in place if the key exists, else append
(JS `Map.set` / R2 `put` semantics). -/
def jsMapPut {α : Type} (m : List (String × α)) (key : String) (v : α) :
    List (String × α) :=
  if m.any (fun kv => kv.1 == key) then
    m.map (fun kv => if kv.1 == key then (key, v) else kv)
  else m ++ [(key, v)]

/-- `m.get key` (R2 `get` / JS `Map.get`). -/
def jsMapGet {α : Type} (m : List (String × α)) (key : String) : Option α :=
  (m.find? (fun kv => kv.1 == key)).map (fun kv => kv.2)

/-- `m.delete key`; deleting an absent key is a no-op, as in R2. -/
def jsMapDelete {α : Type} (m : List (String × α)) (key : String) :
    List (String × α) :=
  m.filter (fun kv => !(kv.1 == key))

/-- `env.FILES.put`. -/
def r2put (bucket : List (String × String)) (key content : String) :
    List (String × String) :=
  jsMapPut bucket key content

/-- `env.FILES.get`. -/
def r2get (bucket : List (String × String)) (key : String) : Option String :=
  jsMapGet bucket key

/-- `env.FILES.delete`. -/
def r2delete (bucket : List (String × String)) (key : String) :
    List (String × String) :=
  jsMapDelete bucket key

/-! ## ProjectManager: data model (src/project-manager.ts) -/

/-- The TEXT `type` column of the `files` table: `'file'` or `'directory'`. -/
inductive FileType
  | file
  | directory
deriving DecidableEq, Repr

/-- The TEXT actually stored in the `type` column; SQL `ORDER BY type` compares
these strings. -/
def FileType.toText : FileType → String
  | .file => "file"
  | .directory => "directory"

/-- One row of the `files` table (`CREATE TABLE files` in project-manager.ts). -/
structure FileRow where
  id : String
  project_id : String
  path : String
  name : String
  type : FileType
  parent_path : Option String
  size : Nat
  created_at : Nat
  updated_at : Nat
deriving DecidableEq, Repr

/-- One row of the `projects` table. -/
structure ProjectRow where
  id : String
  name : String
  description : Option String
  user_id : String
  created_at : Nat
  updated_at : Nat
deriving DecidableEq, Repr

/-- Combined state a ProjectManager instance acts on: the two SQLite tables
plus the shared R2 bucket `env.FILES` (blob keys are `projectId ++ "/" ++ path`,
preview artifacts live under `previews/...`). -/
structure PMState where
  projects : List ProjectRow
  files : List FileRow
  blobs : List (String × String)
deriving DecidableEq, Repr

/-- Outcomes of a ProjectManager operation other than a successful response:
`notFound` is the HTTP 404 branch; `uniqueViolation` is a SQLite
`UNIQUE`/`PRIMARY KEY` constraint error thrown by `INSERT` and surfaced by the
`fetch` handler as HTTP 500; `afterWriteLost` is the defensive
"File not found after creation" 500 branch. -/
inductive PMErr
  | notFound
  | uniqueViolation
  | afterWriteLost
deriving DecidableEq, Repr

/-- The JSON body `ProjectManager.createFile` reads from the request
(`FileNode` fields it actually consumes). `size` and `content` are optional;
the source evaluates `data.size || 0` and `data.content || ""`, so an absent
field and an absent value behave alike. -/
structure CreateFileInput where
  path : String
  name : String
  type : FileType
  parent_path : Option String := none
  size : Option Nat := none
  content : Option String := none
deriving DecidableEq, Repr

/-- Predicate used by every `SELECT ... WHERE project_id = ? AND path = ?`. -/
def rowMatch (projectId filePath : String) (r : FileRow) : Bool :=
  r.project_id == projectId && r.path == filePath

/-! ## ProjectManager: operations

Each operation returns its HTTP-level response (as an `Except`) together with
the state after the operation; an error response may still leave the state
mutated, exactly as in the source. -/

/-- `ProjectManager.createFile`: INSERT the metadata row (subject to the
`PRIMARY KEY(id)` and `UNIQUE(project_id, path)` constraints, whose violation
throws before any other statement runs), then — for `type = file` only — put
the content (`data.content || ""`) into R2 under `projectId/path`, bump the
project's `updated_at`, and re-SELECT the row by id for the response.
Note the stored `size` is `data.size || 0`, taken from the caller. -/
def createFile (st : PMState) (projectId : String) (data : CreateFileInput)
    (newId : String) (now : Nat) : Except PMErr FileRow × PMState :=
  if st.files.any (fun r => r.id == newId) ||
      st.files.any (fun r => rowMatch projectId data.path r) then
    (.error .uniqueViolation, st)
  else
    let row : FileRow :=
      { id := newId, project_id := projectId, path := data.path,
        name := data.name, type := data.type, parent_path := data.parent_path,
        size := data.size.getD 0, created_at := now, updated_at := now }
    let files := st.files ++ [row]
    let blobs :=
      if data.type = .file then
        r2put st.blobs (projectId ++ "/" ++ data.path) (data.content.getD "")
      else st.blobs
    let projects := st.projects.map
      (fun p => if p.id == projectId then { p with updated_at := now } else p)
    let st' : PMState := { projects := projects, files := files, blobs := blobs }
    match files.find? (fun r => r.id == newId) with
    | some found => (.ok found, st')
    | none => (.error .afterWriteLost, st')

/-- `ProjectManager.getFile`: SELECT the row by `(project_id, path)` (404 if
absent), then fetch the blob at `projectId/path` (404 if absent — the two
missing cases are reported identically), and answer `{...file, content}`. -/
def getFile (st : PMState) (projectId filePath : String) :
    Except PMErr (FileRow × String) :=
  match st.files.find? (rowMatch projectId filePath) with
  | none => .error .notFound
  | some file =>
    match r2get st.blobs (projectId ++ "/" ++ filePath) with
    | none => .error .notFound
    | some content => .ok (file, content)

/-- `ProjectManager.updateFile`: SELECT the row by `(project_id, path)`; 404
(with nothing written) if absent. Otherwise put the new content into R2 first,
then UPDATE the row's `size` (the UTF-8 byte length of the content, computed by
`new TextEncoder().encode(content).length`) and `updated_at` by id, bump the
project's `updated_at`, and re-SELECT by id for the response `{...row, content}`.
There is no check of the node's `type`. -/
def updateFile (st : PMState) (projectId filePath content : String) (now : Nat) :
    Except PMErr (Option FileRow × String) × PMState :=
  match st.files.find? (rowMatch projectId filePath) with
  | none => (.error .notFound, st)
  | some file =>
    let blobs := r2put st.blobs (projectId ++ "/" ++ filePath) content
    let size := content.utf8ByteSize
    let files := st.files.map
      (fun r => if r.id == file.id then { r with size := size, updated_at := now } else r)
    let projects := st.projects.map
      (fun p => if p.id == projectId then { p with updated_at := now } else p)
    (.ok (files.find? (fun r => r.id == file.id), content),
      { projects := projects, files := files, blobs := blobs })

/-- `ProjectManager.deleteFile`: SELECT the row (404 if absent), delete the
blob at `projectId/path` unconditionally, DELETE the row by id, bump the
project's `updated_at`. -/
def deleteFile (st : PMState) (projectId filePath : String) (now : Nat) :
    Except PMErr Unit × PMState :=
  match st.files.find? (rowMatch projectId filePath) with
  | none => (.error .notFound, st)
  | some file =>
    let blobs := r2delete st.blobs (projectId ++ "/" ++ filePath)
    let files := st.files.filter (fun r => !(r.id == file.id))
    let projects := st.projects.map
      (fun p => if p.id == projectId then { p with updated_at := now } else p)
    (.ok (), { projects := projects, files := files, blobs := blobs })

/-- Strict lexicographic comparison of codepoint sequences: the order SQLite's
BINARY collation induces on TEXT values (byte order on UTF-8 agrees with
codepoint order). -/
def charListLt : List Char → List Char → Bool
  | _, [] => false
  | [], _ :: _ => true
  | a :: as, b :: bs => if a < b then true else if a == b then charListLt as bs else false

/-- `a` sorts strictly before `b` under BINARY collation. -/
def strLtB (a b : String) : Bool := charListLt a.data b.data

/-- `a` sorts at or before `b` under BINARY collation. -/
def strLeB (a b : String) : Bool := strLtB a b || a == b

/-- The comparison realized by `ORDER BY type DESC, name ASC` over the TEXT
values of the two columns (BINARY collation). `type DESC` compares the stored
strings `"file"` and `"directory"` in descending order. -/
def sqlTreeLe (a b : FileRow) : Prop :=
  strLtB b.type.toText a.type.toText = true ∨
    (a.type.toText = b.type.toText ∧ strLeB a.name b.name = true)

instance (a b : FileRow) : Decidable (sqlTreeLe a b) := by
  unfold sqlTreeLe
  infer_instance

/-- `ProjectManager.getFileTree`:
`SELECT * FROM files WHERE project_id = ? ORDER BY type DESC, name ASC`.
SQL does not fix a sorting algorithm and leaves the relative order of ties
unspecified; the embedding picks a stable sort. -/
def getFileTree (st : PMState) (projectId : String) : List FileRow :=
  (st.files.filter (fun r => r.project_id == projectId)).insertionSort sqlTreeLe

/-! ## The moveFile AI tool (code-tools)

`moveFile` (and `renameFile`, which computes the destination path from a new
name and then runs the identical body) lives in the AI tool layer, not in the
ProjectManager: it reads the blob at the old key from `env.FILES` directly,
writes it under the new key, deletes the old key, and then calls the
ProjectManager over HTTP — a DELETE of the old path followed by a PUT of the
new path — ignoring both responses. The router maps PUT `/files/...` to
`updateFile`. -/

/-- Result object returned by the `moveFile` tool. -/
structure MoveResult where
  success : Bool
  error : Option String := none
deriving DecidableEq, Repr

/-- The `moveFile` tool body (code-tools `moveFile.execute`). The two
ProjectManager calls run against the same metadata tables; their HTTP responses
are discarded by the tool. -/
def moveFileTool (st : PMState) (projectId sourcePath destinationPath : String)
    (now : Nat) : MoveResult × PMState :=
  match r2get st.blobs (projectId ++ "/" ++ sourcePath) with
  | none => ({ success := false, error := some "Source file not found" }, st)
  | some content =>
    let blobs1 := r2put st.blobs (projectId ++ "/" ++ destinationPath) content
    let blobs2 := r2delete blobs1 (projectId ++ "/" ++ sourcePath)
    let st1 : PMState := { st with blobs := blobs2 }
    let st2 := (deleteFile st1 projectId sourcePath now).2
    let st3 := (updateFile st2 projectId destinationPath content now).2
    ({ success := true }, st3)

/-! ## BuildRunner: data model (the build Durable Object) -/

/-- The status union of a build record:
`"pending" | "installing" | "building" | "success" | "failed"`. -/
inductive BStatus
  | pending
  | installing
  | building
  | success
  | failed
deriving DecidableEq, Repr

/-- A `BuildStatus` record of the BuildRunner. -/
structure BuildRecord where
  id : String
  projectId : String
  status : BStatus
  logs : List String
  previewUrl : Option String := none
  startedAt : Nat
  completedAt : Option Nat := none
  error : Option String := none
deriving DecidableEq, Repr

/-- The in-memory registry `builds : Map<string, BuildStatus>`. -/
abbrev BuildsMap := List (String × BuildRecord)

/-- `builds.get buildId`. -/
def buildsGet (builds : BuildsMap) (buildId : String) : Option BuildRecord :=
  jsMapGet builds buildId

/-- In-place mutation of the record stored under `buildId` (in the source the
record object is aliased, so mutating it updates the map entry); appends if the
key is absent, as `Map.set` would. -/
def buildsSet (builds : BuildsMap) (buildId : String) (b : BuildRecord) :
    BuildsMap :=
  jsMapPut builds buildId b

/-- What the BuildRunner reads out of a parsed `package.json`: the names of the
entries of `dependencies` and `devDependencies` (an entry models a key with a
truthy version value, the only way the source consumes them). -/
structure Pkg where
  dependencies : List String := []
  devDependencies : List String := []
deriving DecidableEq, Repr

/-- `pkg.dependencies?.n || pkg.devDependencies?.n`. -/
def Pkg.hasDep (p : Pkg) (n : String) : Bool :=
  p.dependencies.contains n || p.devDependencies.contains n

/-- A project file as fetched by `getProjectFiles`: a blob key relative to the
`projectId/` namespace together with its content. -/
structure ProjFile where
  path : String
  content : String
deriving DecidableEq, Repr

/-! ## BuildRunner: phases -/

/-- `BuildRunner.detectProjectType`: classify by the manifest's declared
dependencies (note `express` is looked up in `dependencies` only), else by the
presence of `index.html`, else `"unknown"`. A manifest that fails to parse is
swallowed here (the `catch` comment reads "Invalid package.json") and falls
through to the `index.html` check. `parseJson` models the platform's
`JSON.parse`. -/
def detectProjectType (parseJson : String → Except String Pkg)
    (files : List ProjFile) : String :=
  let fallback : String :=
    if files.any (fun f => f.path == "index.html") then "static" else "unknown"
  match files.find? (fun f => f.path == "package.json") with
  | some packageJson =>
    match parseJson packageJson.content with
    | .ok pkg =>
      if pkg.hasDep "react" then
        if pkg.hasDep "next" then "nextjs"
        else if pkg.hasDep "vite" then "vite-react"
        else "react"
      else if pkg.hasDep "vue" then "vue"
      else if pkg.hasDep "svelte" then "svelte"
      else if pkg.dependencies.contains "express" then "express"
      else fallback
    | .error _ => fallback
  | none => fallback

/-- `BuildRunner.installDependencies`: parse the manifest again; on success
push two log lines (the count is `Object.keys({...deps, ...devDeps}).length`),
on a parse failure throw `Failed to parse package.json: <error>`. The mutated
record is returned alongside the outcome. -/
def installDependencies (parseJson : String → Except String Pkg)
    (packageJsonContent : String) (b : BuildRecord) :
    Except String Unit × BuildRecord :=
  match parseJson packageJsonContent with
  | .ok pkg =>
    let count := ((pkg.dependencies ++ pkg.devDependencies).dedup).length
    (.ok (),
      { b with logs := b.logs ++
          ["Dependencies to install: " ++ toString count,
           "Using bundler for dependency resolution"] })
  | .error e => (.error ("Failed to parse package.json: " ++ e), b)

/-- `BuildRunner.createHTMLWrapper`: reuse an existing `index.html`, otherwise
emit the minimal wrapper referencing the entry point. -/
def createHTMLWrapper (files : List ProjFile) (entryPath : String) : String :=
  match files.find? (fun f => f.path == "index.html") with
  | some indexHtml => indexHtml.content
  | none =>
    "<!DOCTYPE html>\n<html lang=\"en\">\n  <head>\n    <meta charset=\"UTF-8\" />\n    <meta name=\"viewport\" content=\"width=device-width, initial-scale=1.0\" />\n    <title>Preview</title>\n    <script type=\"module\">\n      import \"" ++ entryPath ++ "\";\n    </script>\n  </head>\n  <body>\n    <div id=\"root\"></div>\n  </body>\n</html>"

/-- The conventional entry filenames the react branch of `buildProject`
searches for. -/
def isEntryPath (p : String) : Bool :=
  p == "src/main.tsx" || p == "src/main.jsx" ||
  p == "src/index.tsx" || p == "src/index.jsx"

/-- `BuildRunner.buildProject`: the built output is a JS `Map`. The `static`
profile copies every file; the `vite-react`/`react` profile requires one of
the conventional entry files (throwing
`No entry file found (main.tsx, index.tsx, etc.)` otherwise), sets the HTML
wrapper under `index.html`, then copies every file through unmodified (both
arms of its extension check store the content unchanged); every other profile
falls through and returns the empty map. Log pushes performed before a throw
survive on the returned record. -/
def buildProject (files : List ProjFile) (projectType : String)
    (b : BuildRecord) :
    Except String (List (String × String)) × BuildRecord :=
  if projectType == "static" then
    (.ok (files.foldl (fun m f => jsMapPut m f.path f.content) []), b)
  else if projectType == "vite-react" || projectType == "react" then
    let b1 := { b with logs := b.logs ++ ["Building React application..."] }
    match files.find? (fun f => isEntryPath f.path) with
    | none => (.error "No entry file found (main.tsx, index.tsx, etc.)", b1)
    | some entryFile =>
      let html := createHTMLWrapper files entryFile.path
      let m0 := jsMapPut [] "index.html" html
      (.ok (files.foldl (fun m f => jsMapPut m f.path f.content) m0), b1)
  else
    (.ok [], b)

/-- `BuildRunner.deployPreview`: write every output under
`previews/{projectId}/{buildId}/{path}` in the shared bucket and return the
preview URL `/preview/{projectId}/{buildId}/`. -/
def deployPreview (buildId : String) (builtFiles : List (String × String))
    (projectId : String) (bucket : List (String × String)) :
    String × List (String × String) :=
  let pre := "previews/" ++ projectId ++ "/" ++ buildId ++ "/"
  (("/preview/" ++ projectId ++ "/" ++ buildId ++ "/"),
    builtFiles.foldl (fun bs kv => r2put bs (pre ++ kv.1) kv.2) bucket)

/-- `BuildRunner.getContentType`: extension table used by the deploy phase. -/
def getContentType (path : String) : String :=
  let ext := ((path.splitOn ".").getLastD "").toLower
  if ext == "html" then "text/html"
  else if ext == "css" then "text/css"
  else if ext == "js" then "application/javascript"
  else if ext == "json" then "application/json"
  else if ext == "png" then "image/png"
  else if ext == "jpg" then "image/jpeg"
  else if ext == "jpeg" then "image/jpeg"
  else if ext == "gif" then "image/gif"
  else if ext == "svg" then "image/svg+xml"
  else if ext == "ico" then "image/x-icon"
  else "text/plain"

/-- The catch-block of `executeBuild`: mark the record failed, record the
exception message and the completion time, push the final `ERROR:` line.
No terminal-state check precedes any of these writes. -/
def failWith (b : BuildRecord) (msg : String) (now : Nat) : BuildRecord :=
  { b with
    status := .failed,
    error := some msg,
    completedAt := some now,
    logs := b.logs ++ ["ERROR: " ++ msg] }

/-- First atomic segment of `BuildRunner.executeBuild`, up to its first await
(`await this.getProjectFiles(...)`): look the record up (return unchanged if
absent), set `status = "installing"` and push the start log line. -/
def executeBuildPhase1 (builds : BuildsMap) (buildId projectId : String) :
    BuildsMap :=
  match buildsGet builds buildId with
  | none => builds
  | some build =>
    buildsSet builds buildId
      { build with
        status := .installing,
        logs := build.logs ++ ["Starting build for project " ++ projectId] }

/-- The remainder of `BuildRunner.executeBuild` after the file snapshot
arrives, taken as one atomic block (its interior awaits would only add further
interleaving points). `files` is the snapshot returned by `getProjectFiles`;
`bucket` is the shared R2 bucket the deploy phase writes into; `now` is the
completion clock. The record is re-read from the map because the source keeps
an aliased reference to the mapped object across the await. Every status write
is unconditional: there is no terminal-state guard. -/
def executeBuildRest (parseJson : String → Except String Pkg)
    (builds : BuildsMap) (buildId projectId : String) (files : List ProjFile)
    (now : Nat) (bucket : List (String × String)) :
    BuildsMap × List (String × String) :=
  match buildsGet builds buildId with
  | none => (builds, bucket)
  | some b0 =>
    let b1 := { b0 with logs := b0.logs ++
      ["Found " ++ toString files.length ++ " files"] }
    let projectType := detectProjectType parseJson files
    let b2 := { b1 with logs := b1.logs ++
      ["Detected project type: " ++ projectType] }
    let installStep : Except String Unit × BuildRecord :=
      match files.find? (fun f => f.path == "package.json") with
      | some pj =>
        installDependencies parseJson pj.content
          { b2 with logs := b2.logs ++ ["Installing dependencies..."] }
      | none => (.ok (), b2)
    match installStep with
    | (.error e, b4) => (buildsSet builds buildId (failWith b4 e now), bucket)
    | (.ok _, b4) =>
      let b5 := { b4 with
        status := .building,
        logs := b4.logs ++ ["Building project..."] }
      match buildProject files projectType b5 with
      | (.error e, b6) => (buildsSet builds buildId (failWith b6 e now), bucket)
      | (.ok builtFiles, b6) =>
        let deployed := deployPreview buildId builtFiles projectId bucket
        let previewUrl := deployed.1
        let b7 := { b6 with
          status := .success,
          previewUrl := some previewUrl,
          completedAt := some now,
          logs := b6.logs ++
            ["Build completed successfully!", "Preview URL: " ++ previewUrl] }
        (buildsSet builds buildId b7, deployed.2)

/-- `BuildRunner.cancelBuild`: 404 if the id is unknown; if the status is one
of the three non-terminal values, set `failed`, `error = "Build cancelled by
user"`, the completion time, and push `Build cancelled`; otherwise leave the
record untouched. Either way respond with the (possibly updated) record. -/
def cancelBuild (builds : BuildsMap) (buildId : String) (now : Nat) :
    Option BuildRecord × BuildsMap :=
  match buildsGet builds buildId with
  | none => (none, builds)
  | some build =>
    let build' :=
      if build.status = .pending ∨ build.status = .installing ∨
          build.status = .building then
        { build with
          status := .failed,
          error := some "Build cancelled by user",
          completedAt := some now,
          logs := build.logs ++ ["Build cancelled"] }
      else build
    (some build', buildsSet builds buildId build')

/-- `BuildRunner.getBuildStatus`: the record, or a 404. -/
def getBuildStatus (builds : BuildsMap) (buildId : String) :
    Option BuildRecord :=
  buildsGet builds buildId

/-! ## Spec-side ordering predicate and concrete scenario states

The spec's claimed ordering for `listFiles` ("directories first, then within
each type group alphabetically by name"), stated as a relation so that the
claim can be checked against `getFileTree`. -/

/-- A pair of rows is ordered as the spec demands: a directory may precede a
file, and rows of equal type must be in name order. -/
def specTreeOrder (a b : FileRow) : Prop :=
  (a.type = .directory ∧ b.type = .file) ∨
    (a.type = b.type ∧ strLeB a.name b.name = true)

instance (a b : FileRow) : Decidable (specTreeOrder a b) := by
  unfold specTreeOrder
  infer_instance

/-- A concrete project row used by the scenario states. -/
def projP : ProjectRow :=
  { id := "p", name := "demo", description := none, user_id := "u",
    created_at := 0, updated_at := 0 }

/-- A fresh project state holding only `projP`. -/
def emptyProjState : PMState := { projects := [projP], files := [], blobs := [] }

/-- Request body creating the directory `assets`. -/
def dirInput : CreateFileInput :=
  { path := "assets", name := "assets", type := .directory }

/-- State after `createFile` of the directory `assets`. -/
def dirState1 : PMState := (createFile emptyProjState "p" dirInput "f1" 1).2

/-- State after a subsequent `updateFile` on the directory's path. -/
def dirState2 : PMState := (updateFile dirState1 "p" "assets" "oops" 2).2

/-- Scenario A request body: `index.html` with initial content
`<h1>hi</h1>` and no caller-supplied size. -/
def htmlInput : CreateFileInput :=
  { path := "index.html", name := "index.html", type := .file,
    content := some "<h1>hi</h1>" }

/-- A directory row named `b` and a file row named `a.txt`, for the tree
ordering check. -/
def rowDirB : FileRow :=
  { id := "d1", project_id := "p", path := "b", name := "b",
    type := .directory, parent_path := none, size := 0,
    created_at := 0, updated_at := 0 }

/-- See `rowDirB`. -/
def rowFileA : FileRow :=
  { id := "f1", project_id := "p", path := "a.txt", name := "a.txt",
    type := .file, parent_path := none, size := 1,
    created_at := 0, updated_at := 0 }

/-- A project holding one directory and one file. -/
def treeState : PMState :=
  { projects := [projP], files := [rowDirB, rowFileA],
    blobs := [("p/a.txt", "x")] }

/-- The single file row of the move scenario. -/
def moveRowA : FileRow :=
  { id := "fa", project_id := "p", path := "a.txt", name := "a.txt",
    type := .file, parent_path := none, size := 1, created_at := 0,
    updated_at := 0 }

/-- A project with a single file `a.txt`, input of the move scenario. -/
def moveState0 : PMState :=
  { projects := [projP], files := [moveRowA], blobs := [("p/a.txt", "x")] }

/-- A completed `moveFile` run from `a.txt` to `b.txt`. -/
def moveRun : MoveResult × PMState := moveFileTool moveState0 "p" "a.txt" "b.txt" 3

/-- `moveState0` interrupted between the new-content write and the metadata
swap: the blob has been copied to the new key and deleted from the old key, but
neither ProjectManager call has run yet. -/
def moveInterrupted : PMState :=
  { moveState0 with
    blobs := r2delete (r2put moveState0.blobs "p/b.txt" "x") "p/a.txt" }

/-- Re-running the move from the interrupted state. -/
def moveRetry : MoveResult × PMState :=
  moveFileTool moveInterrupted "p" "a.txt" "b.txt" 4

/-! Concrete build scenarios. -/

/-- A `parseJson` instance for a store holding no valid JSON at all. -/
def parseJsonFail : String → Except String Pkg :=
  fun _ => .error "SyntaxError: Unexpected token o in JSON at position 1"

/-- The manifest text of the vue scenario. -/
def vuePkgJson : String := "\x7b \"dependencies\": \x7b \"vue\": \"^3.0.0\" \x7d \x7d"

/-- The manifest text of the react scenario. -/
def reactPkgJson : String := "\x7b \"dependencies\": \x7b \"react\": \"^18.0.0\" \x7d \x7d"

/-- A `parseJson` instance resolving the two scenario manifests and failing on
everything else, as `JSON.parse` would. -/
def parseJsonDemo : String → Except String Pkg :=
  fun s =>
    if s == vuePkgJson then .ok { dependencies := ["vue"] }
    else if s == reactPkgJson then .ok { dependencies := ["react"] }
    else .error "SyntaxError: Unexpected token o in JSON at position 1"

/-- A vue project with no conventional entry file. -/
def vueFiles : List ProjFile := [{ path := "package.json", content := vuePkgJson }]

/-- A react project with no conventional entry file. -/
def reactFiles : List ProjFile :=
  [{ path := "package.json", content := reactPkgJson }]

/-- A project with neither manifest nor `index.html`. -/
def unknownFiles : List ProjFile := [{ path := "notes.txt", content := "hello" }]

/-- A bare-markup project, classified `static`. -/
def staticFiles : List ProjFile :=
  [{ path := "index.html", content := "<h1>hi</h1>" },
   { path := "style.css", content := "body \x7b\x7d" }]

/-- A project whose manifest is invalid JSON. -/
def badJsonFiles : List ProjFile := [{ path := "package.json", content := "\x7b oops" }]

/-- A freshly started build record (what `startBuild` registers). -/
def freshBuild (buildId projectId : String) : BuildRecord :=
  { id := buildId, projectId := projectId, status := .pending, logs := [],
    startedAt := 0 }

/-- Registry holding one pending build `b1` of project `p1`. -/
def raceBuilds0 : BuildsMap := [("b1", freshBuild "b1" "p1")]

/-- The background task has executed its first segment and is awaiting the
file snapshot. -/
def raceBuilds1 : BuildsMap := executeBuildPhase1 raceBuilds0 "b1" "p1"

/-- A cancel request lands while the snapshot fetch is in flight. -/
def raceBuilds2 : BuildsMap := (cancelBuild raceBuilds1 "b1" 5).2

/-- The background task resumes and runs to completion (an empty project:
no manifest, no `index.html`, so the unknown profile builds and deploys an
empty output set). -/
def raceBuilds3 : BuildsMap :=
  (executeBuildRest parseJsonFail raceBuilds2 "b1" "p1" [] 9 []).1

/-- Registry holding one build of each non-terminal scenario status. -/
def cancelCexBuilds : BuildsMap :=
  [("bc", { freshBuild "bc" "p" with
            status := .installing,
            logs := ["Starting build for project p"] })]

/-- Registry for the vue scenario. -/
def vueBuilds0 : BuildsMap := [("bv", freshBuild "bv" "pv")]

/-- Final registry of the vue scenario: phase 1, then the rest of the pipeline
over `vueFiles`. -/
def vueBuildsFinal : BuildsMap :=
  (executeBuildRest parseJsonDemo (executeBuildPhase1 vueBuilds0 "bv" "pv")
    "bv" "pv" vueFiles 9 []).1

/-- A build record mid-pipeline, used to exercise `buildProject` directly. -/
def blankBuilding : BuildRecord :=
  { freshBuild "b" "p" with status := .building }



/-! ## Store lemmas -/

/-- The overwrite pass of `jsMapPut` never changes an entry's key. -/
theorem jsMapPut_overwrite_key {α : Type} (k : String) (v : α)
    (kv : String × α) :
    ((if kv.1 == k then (k, v) else kv) : String × α).1 = kv.1 := by
  by_cases h : kv.1 == k
  · simp only [h, if_true]
    exact (eq_of_beq h).symm
  · simp [h]

/-- Reading back the key just put. -/
theorem jsMapGet_put_self {α : Type} (m : List (String × α)) (k : String)
    (v : α) : jsMapGet (jsMapPut m k v) k = some v := by
  unfold jsMapPut jsMapGet
  by_cases h : m.any (fun kv => kv.1 == k)
  · simp only [h, if_true, List.find?_map]
    have hp : ((fun kv : String × α => kv.1 == k) ∘
        (fun kv => if kv.1 == k then (k, v) else kv)) =
        fun kv : String × α => kv.1 == k := by
      funext kv
      simp only [Function.comp]
      rw [jsMapPut_overwrite_key]
    rw [hp]
    rcases List.any_eq_true.mp h with ⟨kv0, hmem, hkv0⟩
    have hsome : (m.find? (fun kv : String × α => kv.1 == k)).isSome :=
      List.find?_isSome.mpr ⟨kv0, hmem, hkv0⟩
    rcases Option.isSome_iff_exists.mp hsome with ⟨kv1, hfind⟩
    have hkv1 := @List.find?_some _ (fun kv : String × α => kv.1 == k) kv1 m hfind
    have heq : kv1.1 = k := eq_of_beq hkv1
    rw [hfind]
    simp [heq]
  · simp only [h, if_false, List.find?_append]
    have hnone : m.find? (fun kv : String × α => kv.1 == k) = none := by
      rw [List.find?_eq_none]
      intro x hx hpx
      exact h (List.any_eq_true.mpr ⟨x, hx, hpx⟩)
    simp [hnone, List.find?]

/-- Putting one key does not change the read of another. -/
theorem jsMapGet_put_other {α : Type} (m : List (String × α)) (k k' : String)
    (v : α) (hne : k' ≠ k) : jsMapGet (jsMapPut m k v) k' = jsMapGet m k' := by
  unfold jsMapPut jsMapGet
  by_cases h : m.any (fun kv => kv.1 == k)
  · simp only [h, if_true, List.find?_map]
    have hp : ((fun kv : String × α => kv.1 == k') ∘
        (fun kv => if kv.1 == k then (k, v) else kv)) =
        fun kv : String × α => kv.1 == k' := by
      funext kv
      simp only [Function.comp]
      rw [jsMapPut_overwrite_key]
    rw [hp]
    rcases hf : m.find? (fun kv : String × α => kv.1 == k') with _ | kv1
    · simp
    · have hkv1 := @List.find?_some _ (fun kv : String × α => kv.1 == k') kv1 m hf
      have hne2 : kv1.1 ≠ k := by
        intro hx
        exact hne ((eq_of_beq hkv1).symm.trans hx)
      simp [hne2]
  · simp only [h, if_false, List.find?_append]
    have hk : (k == k') = false := beq_eq_false_iff_ne.mpr fun hx => hne hx.symm
    simp [List.find?, hk]

/-- `find?` commutes with a `filter` that keeps everything the search accepts. -/
theorem find?_filter_of_imp {α : Type} (l : List α) (p q : α → Bool)
    (himp : ∀ x, p x = true → q x = true) :
    (l.filter q).find? p = l.find? p := by
  induction l with
  | nil => rfl
  | cons a t ih =>
    by_cases hq : q a
    · by_cases hp : p a
      · simp [List.filter_cons, hq, List.find?, hp]
      · simp only [Bool.not_eq_true] at hp
        simp [List.filter_cons, hq, List.find?, hp, ih]
    · have hp : p a = false := by
        by_contra hc
        rw [Bool.not_eq_false] at hc
        exact hq (himp a hc)
      simp [List.filter_cons, hq, List.find?, hp, ih]

/-- Reading a deleted key yields nothing. -/
theorem jsMapGet_delete_self {α : Type} (m : List (String × α)) (k : String) :
    jsMapGet (jsMapDelete m k) k = none := by
  unfold jsMapDelete jsMapGet
  have : (m.filter (fun kv => !(kv.1 == k))).find?
      (fun kv : String × α => kv.1 == k) = none := by
    rw [List.find?_eq_none]
    intro x hx hpx
    have := List.of_mem_filter hx
    simp [hpx] at this
  rw [this]
  rfl

/-- Deleting one key does not change the read of another. -/
theorem jsMapGet_delete_other {α : Type} (m : List (String × α)) (k k' : String)
    (hne : k' ≠ k) : jsMapGet (jsMapDelete m k) k' = jsMapGet m k' := by
  unfold jsMapDelete jsMapGet
  rw [find?_filter_of_imp]
  intro x hx
  have hx' : x.1 = k' := eq_of_beq hx
  simp [hx']
  intro hc
  exact hne (hx' ▸ hc)

/-- A `find?` that misses the whole list also misses any sublist obtained by
`filter`. -/
theorem find?_filter_none {α : Type} (l : List α) (p q : α → Bool)
    (h : l.find? p = none) : (l.filter q).find? p = none := by
  rw [List.find?_eq_none] at h ⊢
  intro x hx
  exact h x (List.mem_of_mem_filter hx)

/-- Deleting twice is deleting once. -/
theorem jsMapDelete_idem {α : Type} (m : List (String × α)) (k : String) :
    jsMapDelete (jsMapDelete m k) k = jsMapDelete m k := by
  unfold jsMapDelete
  rw [List.filter_filter]
  simp

/-- In a list whose keys are pairwise distinct, searching for the key of a
member finds exactly that member. -/
theorem find?_key_unique {α : Type} (key : α → String) (l : List α) (x : α)
    (hmem : x ∈ l) (hnodup : (l.map key).Nodup) :
    l.find? (fun r => key r == key x) = some x := by
  induction l with
  | nil => cases hmem
  | cons a t ih =>
    rcases List.mem_cons.mp hmem with rfl | hx
    · simp [List.find?]
    · have hnd := hnodup
      rw [List.map_cons, List.nodup_cons] at hnd
      have hka : key a ≠ key x := by
        intro hc
        exact hnd.1 (hc ▸ List.mem_map_of_mem key hx)
      have : (key a == key x) = false := beq_eq_false_iff_ne.mpr hka
      simp only [List.find?, this]
      exact ih hx hnd.2

/-- Appending to a common front is cancellable. -/
theorem str_append_left_cancel (p a b : String) (h : p ++ a = p ++ b) :
    a = b := by
  have hd := congrArg String.data h
  simp only [String.data_append] at hd
  exact String.ext (List.append_cancel_left hd)

/-- Folding `jsMapPut` over entries with pairwise-distinct fresh keys appends
them in order. -/
theorem foldl_jsMapPut_fresh {α β : Type} (xs : List β) (key : β → String)
    (val : β → α) (acc : List (String × α))
    (hdisj : ∀ x ∈ xs, ∀ kv ∈ acc, kv.1 ≠ key x)
    (hnodup : (xs.map key).Nodup) :
    xs.foldl (fun m x => jsMapPut m (key x) (val x)) acc =
      acc ++ xs.map (fun x => (key x, val x)) := by
  induction xs generalizing acc with
  | nil => simp
  | cons q t ih =>
    have hfresh : (acc.any (fun kv => kv.1 == key q)) = false := by
      rw [List.any_eq_false]
      intro kv hkv
      simp only [Bool.not_eq_true]
      exact beq_eq_false_iff_ne.mpr (hdisj q (List.mem_cons_self q t) kv hkv)
    have hstep : jsMapPut acc (key q) (val q) = acc ++ [(key q, val q)] := by
      unfold jsMapPut
      rw [hfresh]
      simp
    rw [List.foldl_cons, hstep]
    have hnd := hnodup
    rw [List.map_cons, List.nodup_cons] at hnd
    have := ih (acc ++ [(key q, val q)]) ?_ hnd.2
    · rw [this, List.append_assoc]
      rfl
    · intro q' hq' kv hkv
      rcases List.mem_append.mp hkv with h1 | h2
      · exact hdisj q' (List.mem_cons_of_mem q hq') kv h1
      · rcases List.mem_singleton.mp h2 with rfl
        intro hc
        have hc' : key q = key q' := hc
        exact hnd.1 (by rw [hc']; exact List.mem_map_of_mem key hq')

/-! ## Counterexamples -/

/-- C1 — counterexample. The claim says a terminal status is never changed by
a later write. In the modelled race, build `b1` is cancelled while the
background task awaits the file snapshot: at that point its status is the
terminal `failed` (with the cancel error recorded); when the task resumes, its
unguarded writes drive the same build to `success`, overwriting the terminal
state (and leaving the stale cancel error in place) — the status also regressed
out of `failed` through `building`. -/
theorem build_terminal_overwritten_cex :
    (buildsGet raceBuilds2 "b1").map (fun b => b.status) = some .failed ∧
    (buildsGet raceBuilds2 "b1").map (fun b => b.error) =
      some (some "Build cancelled by user") ∧
    (buildsGet raceBuilds3 "b1").map (fun b => b.status) = some .success ∧
    (buildsGet raceBuilds3 "b1").map (fun b => b.error) =
      some (some "Build cancelled by user") := by
  decide

/-- C2 — counterexample. `updateFile` checks only that a metadata row exists,
not its type: updating the path of the directory `assets` (created by
`createFile`, which correctly wrote no blob for it) writes a content blob under
`p/assets`, so a directory-type FileNode acquires a corresponding content
blob. -/
theorem directory_gains_blob_cex :
    (dirState1.files.find? (rowMatch "p" "assets")).map (fun r => r.type) =
      some .directory ∧
    r2get dirState1.blobs "p/assets" = none ∧
    (dirState2.files.find? (rowMatch "p" "assets")).map (fun r => r.type) =
      some .directory ∧
    r2get dirState2.blobs "p/assets" = some "oops" := by
  decide

/-- C4 — counterexample. On a project holding the directory `b` and the file
`a.txt`, `getFileTree` (ORDER BY `type DESC`) returns the file first: the
result violates the claimed directories-first ordering. -/
theorem tree_order_cex :
    (getFileTree treeState "p").map (fun r => r.type) =
      [FileType.file, FileType.directory] ∧
    ¬ (getFileTree treeState "p").Pairwise specTreeOrder := by
  decide

/-- C5 — counterexample (the spec's Scenario A). Creating `index.html` with
initial content `<h1>hi</h1>` and no caller-supplied size stores the blob but
records `size = 0`, not the byte length of the written content. -/
theorem created_size_not_derived_cex :
    ((createFile emptyProjState "p" htmlInput "f2" 1).1).map (fun r => r.size)
      = .ok 0 ∧
    r2get (createFile emptyProjState "p" htmlInput "f2" 1).2.blobs
      "p/index.html" = some "<h1>hi</h1>" ∧
    ("<h1>hi</h1>" : String).utf8ByteSize = 11 ∧ (0 : Nat) ≠ 11 := by
  refine ⟨by decide, by decide, by decide, by decide⟩

/-- C6 — counterexample. Cancelling a non-terminal build records the error
string `Build cancelled by user`; the next status read does not observe the
claimed exact string `cancelled`. -/
theorem cancel_error_string_cex :
    (getBuildStatus (cancelBuild cancelCexBuilds "bc" 7).2 "bc").map
      (fun b => b.error) = some (some "Build cancelled by user") ∧
    ¬ (getBuildStatus (cancelBuild cancelCexBuilds "bc" 7).2 "bc").map
      (fun b => b.error) = some (some "cancelled") := by
  decide

/-- C7 — counterexample. A project classified into the recognized `vue`
framework profile with none of the conventional entry filenames does not fail:
only the react profiles check for an entry point, so the build runs to
`success` (with an empty output set). -/
theorem framework_no_entry_success_cex :
    detectProjectType parseJsonDemo vueFiles = "vue" ∧
    vueFiles.find? (fun f => isEntryPath f.path) = none ∧
    (buildsGet vueBuildsFinal "bv").map (fun b => b.status) = some .success := by
  decide

/-- C8 — counterexample. A nonempty project classified `unknown` is not copied
verbatim: `buildProject` falls through every profile branch and returns the
empty output map. -/
theorem unknown_profile_empty_output_cex :
    detectProjectType parseJsonDemo unknownFiles = "unknown" ∧
    (buildProject unknownFiles "unknown" blankBuilding).1 = .ok [] ∧
    unknownFiles ≠ [] := by
  decide

/-- C9 — counterexample. Moving `a.txt` to `b.txt`: the tool reports success
and the blob reaches the new key, but no metadata row exists at the new path
afterwards (the old row was deleted and the follow-up PUT routes to
`updateFile`, which requires an existing row and 404s), so the metadata swap
the claim describes never happens; and re-running after an interruption
between the new-content write and the metadata swap does not converge to the
completed run's state — it fails with `Source file not found` and leaves the
old metadata row in place. -/
theorem move_no_metadata_swap_cex :
    moveRun.1.success = true ∧
    r2get moveRun.2.blobs "p/b.txt" = some "x" ∧
    moveRun.2.files.find? (rowMatch "p" "b.txt") = none ∧
    moveRetry.1 = { success := false, error := some "Source file not found" } ∧
    moveRetry.2.files ≠ moveRun.2.files := by
  decide

/-! ## ProjectManager theorems -/

/-- C2 (amended). `updateFile` fails `NotFound` without writing anything when
the metadata row is missing, and `createFile` writes no content blob for a
directory-type node; but `updateFile` does not check the node's type, so (as
the counterexample shows) a directory whose row exists does acquire a content
blob when its path is updated. -/
theorem updateFile_missing_and_createFile_dir
    (st : PMState) (projectId filePath content : String) (now : Nat)
    (data : CreateFileInput) (newId : String) :
    (st.files.find? (rowMatch projectId filePath) = none →
      updateFile st projectId filePath content now = (.error .notFound, st)) ∧
    (data.type = .directory →
      (createFile st projectId data newId now).2.blobs = st.blobs) := by
  constructor
  · intro h
    unfold updateFile
    rw [h]
  · intro h
    unfold createFile
    by_cases hc : (st.files.any (fun r => r.id == newId) ||
        st.files.any (fun r => rowMatch projectId data.path r)) = true
    · simp [hc]
    · rw [Bool.not_eq_true] at hc
      simp only [hc, Bool.false_eq_true, if_false, h]
      split <;> simp

/-- C2 (amended) — witness. -/
theorem updateFile_missing_and_createFile_dir_witness :
    updateFile emptyProjState "p" "ghost" "x" 1 =
      (.error .notFound, emptyProjState) ∧
    (createFile emptyProjState "p" dirInput "f1" 1).2.blobs =
      emptyProjState.blobs :=
  ⟨(updateFile_missing_and_createFile_dir emptyProjState "p" "ghost" "x" 1
      dirInput "f1").1 (by decide),
   (updateFile_missing_and_createFile_dir emptyProjState "p" "ghost" "x" 1
      dirInput "f1").2 rfl⟩

/-- `r2get`/`r2put` roundtrip. -/
theorem r2get_put_self (bucket : List (String × String)) (k v : String) :
    r2get (r2put bucket k v) k = some v :=
  jsMapGet_put_self bucket k v

/-- C3 (confirmed). After a successful `updateFile(p, path, c)`, the response
carries the updated row together with `c`, and `getFile(p, path)` on the
resulting state returns content `c` and a `size` equal to the UTF-8 byte
length of `c`. The `Nodup` hypothesis is the `PRIMARY KEY` constraint on
`files.id`. -/
theorem updateFile_getFile_roundtrip
    (st : PMState) (projectId filePath content : String) (now : Nat)
    (row : FileRow)
    (hids : (st.files.map (fun r => r.id)).Nodup)
    (hfind : st.files.find? (rowMatch projectId filePath) = some row)
    (hty : row.type = .file) :
    (updateFile st projectId filePath content now).1 =
      .ok (some { row with size := content.utf8ByteSize, updated_at := now },
        content) ∧
    getFile (updateFile st projectId filePath content now).2 projectId
        filePath =
      .ok ({ row with size := content.utf8ByteSize, updated_at := now },
        content) := by
  have hmem : row ∈ st.files := List.mem_of_find?_eq_some hfind
  have hfid : st.files.find? (fun r => r.id == row.id) = some row := by
    have := find?_key_unique (fun r => r.id) st.files row hmem hids
    simpa using this
  have hcomp1 : ((fun r : FileRow => r.id == row.id) ∘
      (fun r : FileRow => if r.id == row.id then
        { r with size := content.utf8ByteSize, updated_at := now } else r)) =
      (fun r : FileRow => r.id == row.id) := by
    funext r
    by_cases h : r.id == row.id <;> simp [Function.comp, h]
  have hcomp2 : ((rowMatch projectId filePath) ∘
      (fun r : FileRow => if r.id == row.id then
        { r with size := content.utf8ByteSize, updated_at := now } else r)) =
      rowMatch projectId filePath := by
    funext r
    by_cases h : r.id == row.id <;> simp [Function.comp, rowMatch, h]
  have hmap1 : (st.files.map (fun r : FileRow => if r.id == row.id then
      { r with size := content.utf8ByteSize, updated_at := now } else r)).find?
      (fun r => r.id == row.id) =
      some { row with size := content.utf8ByteSize, updated_at := now } := by
    rw [List.find?_map, hcomp1, hfid]
    simp
  have hmap2 : (st.files.map (fun r : FileRow => if r.id == row.id then
      { r with size := content.utf8ByteSize, updated_at := now } else r)).find?
      (rowMatch projectId filePath) =
      some { row with size := content.utf8ByteSize, updated_at := now } := by
    rw [List.find?_map, hcomp2, hfind]
    simp
  refine ⟨?_, ?_⟩
  · simp only [updateFile, hfind]
    rw [hmap1]
  · simp only [updateFile, getFile, hfind]
    rw [hmap2, r2get_put_self]

/-- C3 — witness. -/
theorem updateFile_getFile_roundtrip_witness :
    ((moveState0.files.map (fun r => r.id)).Nodup ∧
      moveState0.files.find? (rowMatch "p" "a.txt") = some moveRowA) ∧
    getFile (updateFile moveState0 "p" "a.txt" "hey" 4).2 "p" "a.txt" =
      .ok ({ moveRowA with size := 3, updated_at := 4 }, "hey") :=
  ⟨⟨by decide, by decide⟩,
    (updateFile_getFile_roundtrip moveState0 "p" "a.txt" "hey" 4 moveRowA
      (by decide) (by decide) (by decide)).2⟩

/-! ## BINARY collation order facts -/

/-- `charListLt` is transitive. -/
theorem charListLt_trans (as : List Char) :
    ∀ bs cs, charListLt as bs = true → charListLt bs cs = true →
      charListLt as cs = true := by
  induction as with
  | nil =>
    intro bs cs h1 h2
    cases bs with
    | nil => simp [charListLt] at h1
    | cons b bs' =>
      cases cs with
      | nil => simp [charListLt] at h2
      | cons c cs' => simp [charListLt]
  | cons a as' ih =>
    intro bs cs h1 h2
    cases bs with
    | nil => simp [charListLt] at h1
    | cons b bs' =>
      cases cs with
      | nil => simp [charListLt] at h2
      | cons c cs' =>
        simp only [charListLt] at h1 h2 ⊢
        by_cases hab : a < b
        · by_cases hbc : b < c
          · simp [lt_trans hab hbc]
          · rw [if_neg hbc] at h2
            by_cases hbc2 : b == c
            · have hbe : b = c := eq_of_beq hbc2
              subst hbe
              simp [hab]
            · rw [if_neg (by simpa using hbc2)] at h2
              cases h2
        · rw [if_neg hab] at h1
          by_cases hab2 : a == b
          · have hae : a = b := eq_of_beq hab2
            rw [if_pos hab2] at h1
            subst hae
            by_cases hbc : a < c
            · simp [hbc]
            · rw [if_neg hbc] at h2
              by_cases hbc2 : a == c
              · have hbe : a = c := eq_of_beq hbc2
                subst hbe
                rw [if_pos hbc2] at h2
                simp only [if_neg hbc, if_pos hbc2]
                exact ih bs' cs' h1 h2
              · rw [if_neg (by simpa using hbc2)] at h2
                cases h2
          · rw [if_neg (by simpa using hab2)] at h1
            cases h1

/-- Two lists incomparable under `charListLt` are equal. -/
theorem charListLt_connex (as : List Char) :
    ∀ bs, charListLt as bs = false → charListLt bs as = false → as = bs := by
  induction as with
  | nil =>
    intro bs h1 h2
    cases bs with
    | nil => rfl
    | cons b bs' => simp [charListLt] at h1
  | cons a as' ih =>
    intro bs h1 h2
    cases bs with
    | nil => simp [charListLt] at h2
    | cons b bs' =>
      simp only [charListLt] at h1 h2
      by_cases hab : a < b
      · rw [if_pos hab] at h1
        cases h1
      · rw [if_neg hab] at h1
        by_cases hba : b < a
        · rw [if_pos hba] at h2
          cases h2
        · have hae : a = b := le_antisymm (not_lt.mp hba) (not_lt.mp hab)
          rw [if_neg hba] at h2
          have hbeq : (a == b) = true := beq_iff_eq.mpr hae
          have hbeq' : (b == a) = true := beq_iff_eq.mpr hae.symm
          rw [if_pos hbeq] at h1
          rw [if_pos hbeq'] at h2
          rw [ih bs' h1 h2, hae]

/-- `strLeB` is transitive. -/
theorem strLeB_trans (a b c : String) (h1 : strLeB a b = true)
    (h2 : strLeB b c = true) : strLeB a c = true := by
  unfold strLeB strLtB at h1 h2 ⊢
  rcases Bool.or_eq_true_iff.mp h1 with hlt1 | heq1
  · rcases Bool.or_eq_true_iff.mp h2 with hlt2 | heq2
    · exact Bool.or_eq_true_iff.mpr
        (Or.inl (charListLt_trans a.data b.data c.data hlt1 hlt2))
    · have : b = c := eq_of_beq heq2
      subst this
      exact Bool.or_eq_true_iff.mpr (Or.inl hlt1)
  · have : a = b := eq_of_beq heq1
    subst this
    exact h2

/-- `strLeB` is total. -/
theorem strLeB_total (a b : String) :
    strLeB a b = true ∨ strLeB b a = true := by
  unfold strLeB strLtB
  by_cases h1 : charListLt a.data b.data = true
  · exact Or.inl (Bool.or_eq_true_iff.mpr (Or.inl h1))
  · by_cases h2 : charListLt b.data a.data = true
    · exact Or.inr (Bool.or_eq_true_iff.mpr (Or.inl h2))
    · have : a.data = b.data :=
        charListLt_connex a.data b.data (Bool.not_eq_true _ ▸ h1)
          (Bool.not_eq_true _ ▸ h2)
      have hab : a = b := String.ext this
      subst hab
      exact Or.inl (Bool.or_eq_true_iff.mpr (Or.inr (beq_iff_eq.mpr rfl)))

/-- `sqlTreeLe` is transitive. -/
theorem sqlTreeLe_trans (a b c : FileRow) (h1 : sqlTreeLe a b)
    (h2 : sqlTreeLe b c) : sqlTreeLe a c := by
  unfold sqlTreeLe at h1 h2 ⊢
  rcases h1 with hlt1 | ⟨heq1, hn1⟩
  · rcases h2 with hlt2 | ⟨heq2, _⟩
    · exact Or.inl (charListLt_trans _ _ _ hlt2 hlt1)
    · exact Or.inl (heq2 ▸ hlt1)
  · rcases h2 with hlt2 | ⟨heq2, hn2⟩
    · exact Or.inl (heq1 ▸ hlt2)
    · exact Or.inr ⟨heq1.trans heq2, strLeB_trans _ _ _ hn1 hn2⟩

/-- `sqlTreeLe` is total. -/
theorem sqlTreeLe_total (a b : FileRow) : sqlTreeLe a b ∨ sqlTreeLe b a := by
  unfold sqlTreeLe
  by_cases h1 : strLtB b.type.toText a.type.toText = true
  · exact Or.inl (Or.inl h1)
  · by_cases h2 : strLtB a.type.toText b.type.toText = true
    · exact Or.inr (Or.inl h2)
    · have hd : a.type.toText.data = b.type.toText.data := by
        unfold strLtB at h1 h2
        exact charListLt_connex _ _ (Bool.not_eq_true _ ▸ h2)
          (Bool.not_eq_true _ ▸ h1)
      have heq : a.type.toText = b.type.toText := String.ext hd
      rcases strLeB_total a.name b.name with hn | hn
      · exact Or.inl (Or.inr ⟨heq, hn⟩)
      · exact Or.inr (Or.inr ⟨heq.symm, hn⟩)

/-- C4 (amended). `getFileTree` returns exactly the project's rows
(`ORDER BY type DESC` over the TEXT values `"file"`/`"directory"` sorts
descending, so file-type rows come first, then directories), and within each
type group the rows are in ascending name order: the opposite type order of
the claim. -/
theorem getFileTree_perm_sorted (st : PMState) (pid : String) :
    List.Perm (getFileTree st pid)
      (st.files.filter (fun r => r.project_id == pid)) ∧
    (getFileTree st pid).Pairwise (fun a b =>
      (a.type = .file ∧ b.type = .directory) ∨
      (a.type = b.type ∧ strLeB a.name b.name = true)) := by
  constructor
  · exact List.perm_insertionSort sqlTreeLe _
  · haveI : IsTotal FileRow sqlTreeLe := ⟨sqlTreeLe_total⟩
    haveI : IsTrans FileRow sqlTreeLe := ⟨sqlTreeLe_trans⟩
    have hs := List.sorted_insertionSort sqlTreeLe
      (st.files.filter (fun r => r.project_id == pid))
    refine hs.imp ?_
    intro a b hab
    rcases hab with h | ⟨heq, hname⟩
    · cases ha : a.type <;> cases hb : b.type <;>
        rw [ha, hb] at h <;> simp only [FileType.toText] at h
      · exact absurd h (by decide)
      · exact Or.inl ⟨rfl, rfl⟩
      · exact absurd h (by decide)
      · exact absurd h (by decide)
    · cases ha : a.type <;> cases hb : b.type <;> rw [ha, hb] at heq <;>
        simp only [FileType.toText] at heq
      · exact Or.inr ⟨rfl, hname⟩
      · exact absurd heq (by decide)
      · exact absurd heq (by decide)
      · exact Or.inr ⟨rfl, hname⟩

/-- C5 (amended). When no constraint fires, `createFile` with `type=file`
stores the row with `size = data.size || 0` — the caller-supplied size (0 when
omitted), independent of the content — while the blob written is the provided
initial content (empty string if omitted). In the spec's Scenario A the stored
size is therefore 0, not the byte length of `<h1>hi</h1>`. -/
theorem createFile_size_from_caller
    (st : PMState) (projectId : String) (data : CreateFileInput)
    (newId : String) (now : Nat)
    (hid : st.files.any (fun r => r.id == newId) = false)
    (hpath : st.files.any (fun r => rowMatch projectId data.path r) = false)
    (hty : data.type = .file) :
    (createFile st projectId data newId now).1 = .ok
      { id := newId, project_id := projectId, path := data.path,
        name := data.name, type := data.type, parent_path := data.parent_path,
        size := data.size.getD 0, created_at := now, updated_at := now } ∧
    r2get (createFile st projectId data newId now).2.blobs
      (projectId ++ "/" ++ data.path) = some (data.content.getD "") := by
  have hnone : st.files.find? (fun r => r.id == newId) = none :=
    List.find?_eq_none.mpr (List.any_eq_false.mp hid)
  constructor
  · simp only [createFile, hid, hpath, Bool.or_self, Bool.false_eq_true,
      if_false, List.find?_append, hnone, List.find?]
    simp
  · simp only [createFile, hid, hpath, Bool.or_self, Bool.false_eq_true,
      if_false, List.find?_append, hnone, List.find?, hty]
    simp [r2get_put_self]

/-- C5 (amended) — witness: Scenario A records `size = 0` for
`index.html` although eleven bytes of content were written. -/
theorem createFile_size_from_caller_witness :
    (createFile emptyProjState "p" htmlInput "f2" 1).1 = .ok
      { id := "f2", project_id := "p", path := htmlInput.path,
        name := htmlInput.name, type := htmlInput.type,
        parent_path := htmlInput.parent_path,
        size := htmlInput.size.getD 0, created_at := 1, updated_at := 1 } ∧
    r2get (createFile emptyProjState "p" htmlInput "f2" 1).2.blobs
      ("p" ++ "/" ++ htmlInput.path) = some (htmlInput.content.getD "") :=
  createFile_size_from_caller emptyProjState "p" htmlInput "f2" 1
    (by decide) (by decide) (by decide)

/-! ## BuildRunner theorems -/

/-- C6 (amended). `cancelBuild` on a registered non-terminal build sets
`failed`, records `error = "Build cancelled by user"` (not `"cancelled"`) and
the completion time, appends exactly one log line (`Build cancelled`), and the
next `getStatus` read observes that record. -/
theorem cancelBuild_nonterminal
    (builds : BuildsMap) (buildId : String) (now : Nat) (b : BuildRecord)
    (h : buildsGet builds buildId = some b)
    (hnt : b.status = .pending ∨ b.status = .installing ∨
      b.status = .building) :
    cancelBuild builds buildId now =
      (some { b with
          status := .failed,
          error := some "Build cancelled by user",
          completedAt := some now,
          logs := b.logs ++ ["Build cancelled"] },
        buildsSet builds buildId { b with
          status := .failed,
          error := some "Build cancelled by user",
          completedAt := some now,
          logs := b.logs ++ ["Build cancelled"] }) ∧
    getBuildStatus (cancelBuild builds buildId now).2 buildId =
      some { b with
        status := .failed,
        error := some "Build cancelled by user",
        completedAt := some now,
        logs := b.logs ++ ["Build cancelled"] } := by
  constructor
  · simp only [cancelBuild, h, if_pos hnt]
  · simp only [cancelBuild, h, if_pos hnt]
    exact jsMapGet_put_self builds buildId _

/-- C6 (amended) — witness. -/
theorem cancelBuild_nonterminal_witness :
    getBuildStatus (cancelBuild cancelCexBuilds "bc" 7).2 "bc" =
      some { freshBuild "bc" "p" with
        status := .failed,
        error := some "Build cancelled by user",
        completedAt := some 7,
        logs := ["Starting build for project p", "Build cancelled"] } :=
  (cancelBuild_nonterminal cancelCexBuilds "bc" 7
    { freshBuild "bc" "p" with
      status := .installing,
      logs := ["Starting build for project p"] }
    (by decide) (Or.inr (Or.inl rfl))).2

/-- C1 (amended). The status writes of an uninterrupted background run are
monotone — from `pending`, the first segment writes `installing` and the
remainder always ends in a terminal `success` or `failed` — and `cancelBuild`
on an already-terminal build leaves the record untouched. However (see the
counterexample) `executeBuild` itself has no terminal-state guard, so a cancel
landing between two segments of the background task is later overwritten by
the still-running task. -/
theorem build_run_monotone_and_cancel_terminal_noop :
    (∀ (builds : BuildsMap) (buildId projectId : String)
        (pj : String → Except String Pkg) (files : List ProjFile) (now : Nat)
        (bucket : List (String × String)) (b : BuildRecord),
      buildsGet builds buildId = some b → b.status = .pending →
      (∃ b1, buildsGet (executeBuildPhase1 builds buildId projectId) buildId =
          some b1 ∧ b1.status = .installing) ∧
      (∃ b2, buildsGet (executeBuildRest pj
            (executeBuildPhase1 builds buildId projectId) buildId projectId
            files now bucket).1 buildId = some b2 ∧
          (b2.status = .success ∨ b2.status = .failed))) ∧
    (∀ (builds : BuildsMap) (buildId : String) (now : Nat) (b : BuildRecord),
      buildsGet builds buildId = some b →
      (b.status = .success ∨ b.status = .failed) →
      (cancelBuild builds buildId now).1 = some b ∧
      buildsGet (cancelBuild builds buildId now).2 buildId = some b) := by
  constructor
  · intro builds buildId projectId pj files now bucket b h hpend
    have h1 : buildsGet (executeBuildPhase1 builds buildId projectId) buildId
        = some { b with
          status := .installing,
          logs := b.logs ++ ["Starting build for project " ++ projectId] } := by
      simp only [executeBuildPhase1, h]
      exact jsMapGet_put_self builds buildId _
    refine ⟨⟨_, h1, rfl⟩, ?_⟩
    rcases hfp : files.find? (fun f => f.path == "package.json") with _ | pjc
    · simp only [executeBuildRest, h1, hfp]
      split
      · exact ⟨_, jsMapGet_put_self _ buildId _, Or.inr rfl⟩
      · exact ⟨_, jsMapGet_put_self _ buildId _, Or.inl rfl⟩
    · rcases hpar : pj pjc.content with e | pkg
      · simp only [executeBuildRest, h1, hfp, installDependencies, hpar]
        exact ⟨_, jsMapGet_put_self _ buildId _, Or.inr rfl⟩
      · simp only [executeBuildRest, h1, hfp, installDependencies, hpar]
        split
        · exact ⟨_, jsMapGet_put_self _ buildId _, Or.inr rfl⟩
        · exact ⟨_, jsMapGet_put_self _ buildId _, Or.inl rfl⟩
  · intro builds buildId now b h hterm
    have hcond : ¬ (b.status = .pending ∨ b.status = .installing ∨
        b.status = .building) := by
      rcases hterm with h' | h' <;> rw [h'] <;> intro hc <;>
        rcases hc with hc | hc | hc <;> cases hc
    simp only [cancelBuild, h, if_neg hcond]
    exact ⟨trivial, jsMapGet_put_self builds buildId b⟩

/-- C1 (amended) — witness: the uninterrupted empty-project run goes
`pending → installing → terminal`, and cancelling the already-failed build of
the race scenario changes nothing. -/
theorem build_run_monotone_witness :
    ((∃ b1, buildsGet (executeBuildPhase1 raceBuilds0 "b1" "p1") "b1" =
        some b1 ∧ b1.status = .installing) ∧
      (∃ b2, buildsGet (executeBuildRest parseJsonFail
          (executeBuildPhase1 raceBuilds0 "b1" "p1") "b1" "p1" [] 9 []).1
          "b1" = some b2 ∧ (b2.status = .success ∨ b2.status = .failed))) ∧
    (∃ b3, buildsGet raceBuilds2 "b1" = some b3 ∧
      (b3.status = .success ∨ b3.status = .failed) ∧
      (cancelBuild raceBuilds2 "b1" 11).1 = some b3 ∧
      buildsGet (cancelBuild raceBuilds2 "b1" 11).2 "b1" = some b3) := by
  have happ := build_run_monotone_and_cancel_terminal_noop
  constructor
  · exact happ.1 raceBuilds0 "b1" "p1" parseJsonFail [] 9 []
      (freshBuild "b1" "p1") (by decide) rfl
  · rcases hb : buildsGet raceBuilds2 "b1" with _ | b3
    · exact absurd hb (by decide)
    · have hst : b3.status = .failed := by
        have hmap : (buildsGet raceBuilds2 "b1").map (fun r => r.status) =
            some .failed := by decide
        rw [hb] at hmap
        simpa using hmap
      have := happ.2 raceBuilds2 "b1" 11 b3 hb (Or.inr hst)
      exact ⟨b3, rfl, Or.inr hst, this.1, this.2⟩

/-- C7 (amended). Only the react-family profiles check for an entry point:
when the project is classified `react` or `vite-react` and none of the four
conventional entry files (`src/main.tsx`, `src/main.jsx`, `src/index.tsx`,
`src/index.jsx`) is present, the background run terminates `failed` with the
error `No entry file found (main.tsx, index.tsx, etc.)`. Other recognized
framework profiles (`nextjs`, `vue`, `svelte`, `express`) perform no such
check (see the counterexample: they build an empty output set and succeed). -/
theorem react_missing_entry_fails
    (pj : String → Except String Pkg) (builds : BuildsMap)
    (buildId projectId : String) (files : List ProjFile) (now : Nat)
    (bucket : List (String × String)) (b : BuildRecord)
    (h : buildsGet builds buildId = some b)
    (hdetect : detectProjectType pj files = "react" ∨
      detectProjectType pj files = "vite-react")
    (hentry : files.find? (fun f => isEntryPath f.path) = none) :
    ∃ b2, buildsGet (executeBuildRest pj builds buildId projectId files now
        bucket).1 buildId = some b2 ∧
      b2.status = .failed ∧
      b2.error = some "No entry file found (main.tsx, index.tsx, etc.)" := by
  have hfp_pkg : ∃ pjc pkg,
      files.find? (fun f => f.path == "package.json") = some pjc ∧
      pj pjc.content = .ok pkg := by
    rcases hfp : files.find? (fun f => f.path == "package.json") with _ | pjc
    · exfalso
      unfold detectProjectType at hdetect
      rw [hfp] at hdetect
      by_cases ha : files.any (fun f => f.path == "index.html") <;>
        simp only [ha, if_true, if_false] at hdetect <;>
        rcases hdetect with hd | hd <;> exact absurd hd (by decide)
    · rcases hpar : pj pjc.content with e | pkg
      · exfalso
        unfold detectProjectType at hdetect
        simp only [hfp, hpar] at hdetect
        by_cases ha : files.any (fun f => f.path == "index.html") <;>
          simp only [ha, if_true, if_false] at hdetect <;>
          rcases hdetect with hd | hd <;> exact absurd hd (by decide)
      · exact ⟨pjc, pkg, hfp, hpar⟩
  obtain ⟨pjc, pkg, hfp, hpar⟩ := hfp_pkg
  rcases hdetect with hd | hd <;>
    simp only [executeBuildRest, h, hfp, installDependencies, hpar, hd,
      buildProject, hentry] <;>
    exact ⟨_, jsMapGet_put_self _ buildId _, rfl, rfl⟩

/-- C7 (amended) — witness: a react project with only a manifest fails with
the missing-entry error. -/
theorem react_missing_entry_fails_witness :
    ∃ b2, buildsGet (executeBuildRest parseJsonDemo
        [("br", freshBuild "br" "pr")] "br" "pr" reactFiles 9 []).1 "br" =
      some b2 ∧ b2.status = .failed ∧
      b2.error = some "No entry file found (main.tsx, index.tsx, etc.)" :=
  react_missing_entry_fails parseJsonDemo [("br", freshBuild "br" "pr")]
    "br" "pr" reactFiles 9 [] (freshBuild "br" "pr")
    (by decide) (Or.inl (by decide)) (by decide)

/-- C8 (amended). The `static` profile copies every file verbatim into the
output set (for distinct paths, the output is exactly the input pairs in
order), but the `unknown` profile is NOT copied verbatim: `buildProject` falls
through every branch and produces the empty output set. The `Nodup` hypothesis
holds of any real snapshot, since R2 keys are unique. -/
theorem static_copies_unknown_empty
    (pj : String → Except String Pkg) (files : List ProjFile) (b : BuildRecord)
    (hnodup : (files.map (fun f => f.path)).Nodup) :
    (detectProjectType pj files = "static" →
      buildProject files (detectProjectType pj files) b =
        (.ok (files.map (fun f => (f.path, f.content))), b)) ∧
    (detectProjectType pj files = "unknown" →
      buildProject files (detectProjectType pj files) b = (.ok [], b)) := by
  constructor
  · intro hd
    rw [hd]
    simp only [buildProject]
    rw [foldl_jsMapPut_fresh files (fun f => f.path) (fun f => f.content) []
      (by intro x hx kv hkv; cases hkv) hnodup]
    simp
  · intro hd
    rw [hd]
    simp [buildProject]

/-- C8 (amended) — witness. -/
theorem static_copies_unknown_empty_witness :
    buildProject staticFiles (detectProjectType parseJsonDemo staticFiles)
      blankBuilding =
      (.ok (staticFiles.map (fun f => (f.path, f.content))), blankBuilding) ∧
    buildProject unknownFiles (detectProjectType parseJsonDemo unknownFiles)
      blankBuilding = (.ok [], blankBuilding) :=
  ⟨(static_copies_unknown_empty parseJsonDemo staticFiles blankBuilding
      (by decide)).1 (by decide),
   (static_copies_unknown_empty parseJsonDemo unknownFiles blankBuilding
      (by decide)).2 (by decide)⟩

/-! ## moveFile tool theorems -/

/-- C9 (amended). `moveFile` is provided by the AI tool layer, not by the
Project Actor's router, and it does not perform the claimed
copy-verify-delete-swap saga: it reads the old blob, writes the new key with
no verification step, deletes the old key, has the ProjectManager delete the
old metadata row, and then issues a PUT for the new path — which routes to
`updateFile` and fails `NotFound` whenever no row already exists there, a
failure the tool ignores. When the source blob exists and the destination has
no metadata row, the tool reports success and moves the blob, but the final
state has no metadata row at the destination (the dual-store invariant is
broken rather than the row swapped). -/
theorem moveFileTool_no_metadata_swap
    (st : PMState) (projectId src dst : String) (now : Nat) (c : String)
    (hsrc : r2get st.blobs (projectId ++ "/" ++ src) = some c)
    (hdst : st.files.find? (rowMatch projectId dst) = none)
    (hne : src ≠ dst) :
    (moveFileTool st projectId src dst now).1 = { success := true } ∧
    r2get (moveFileTool st projectId src dst now).2.blobs
      (projectId ++ "/" ++ dst) = some c ∧
    r2get (moveFileTool st projectId src dst now).2.blobs
      (projectId ++ "/" ++ src) = none ∧
    (moveFileTool st projectId src dst now).2.files.find?
      (rowMatch projectId dst) = none := by
  have hkey : (projectId ++ "/" ++ src) ≠ (projectId ++ "/" ++ dst) := fun hc =>
    hne (str_append_left_cancel (projectId ++ "/") src dst hc)
  rcases hdel : st.files.find? (rowMatch projectId src) with _ | row
  · simp only [moveFileTool, hsrc, deleteFile, hdel, updateFile, hdst]
    refine ⟨trivial, ?_, ?_, trivial⟩
    · show jsMapGet (jsMapDelete (jsMapPut st.blobs
        (projectId ++ "/" ++ dst) c) (projectId ++ "/" ++ src))
        (projectId ++ "/" ++ dst) = some c
      rw [jsMapGet_delete_other _ _ _ (Ne.symm hkey)]
      exact jsMapGet_put_self _ _ _
    · show jsMapGet (jsMapDelete (jsMapPut st.blobs
        (projectId ++ "/" ++ dst) c) (projectId ++ "/" ++ src))
        (projectId ++ "/" ++ src) = none
      exact jsMapGet_delete_self _ _
  · have hfilter : (st.files.filter (fun r => !(r.id == row.id))).find?
        (rowMatch projectId dst) = none :=
      find?_filter_none _ _ _ hdst
    simp only [moveFileTool, hsrc, deleteFile, hdel, updateFile, hfilter]
    refine ⟨trivial, ?_, ?_, trivial⟩
    · show jsMapGet (jsMapDelete (jsMapDelete (jsMapPut st.blobs
        (projectId ++ "/" ++ dst) c) (projectId ++ "/" ++ src))
        (projectId ++ "/" ++ src)) (projectId ++ "/" ++ dst) = some c
      rw [jsMapDelete_idem, jsMapGet_delete_other _ _ _ (Ne.symm hkey)]
      exact jsMapGet_put_self _ _ _
    · show jsMapGet (jsMapDelete (jsMapDelete (jsMapPut st.blobs
        (projectId ++ "/" ++ dst) c) (projectId ++ "/" ++ src))
        (projectId ++ "/" ++ src)) (projectId ++ "/" ++ src) = none
      exact jsMapGet_delete_self _ _

/-- C9 (amended) — witness. -/
theorem moveFileTool_no_metadata_swap_witness :
    0 < 1 ∧
    (moveFileTool moveState0 "p" "a.txt" "b.txt" 3).1 = { success := true } ∧
    r2get (moveFileTool moveState0 "p" "a.txt" "b.txt" 3).2.blobs
      ("p" ++ "/" ++ "b.txt") = some "x" ∧
    r2get (moveFileTool moveState0 "p" "a.txt" "b.txt" 3).2.blobs
      ("p" ++ "/" ++ "a.txt") = none ∧
    (moveFileTool moveState0 "p" "a.txt" "b.txt" 3).2.files.find?
      (rowMatch "p" "b.txt") = none :=
  ⟨by decide,
    moveFileTool_no_metadata_swap moveState0 "p" "a.txt" "b.txt" 3 "x"
      (by decide) (by decide) (by decide)⟩

/-- C10 (confirmed). When `package.json` is present but its content is not
valid JSON, `installDependencies` throws `Failed to parse package.json: <e>`
and the background run marks the build `failed` with exactly that message —
while still in the installing phase: the final log tail shows the pipeline
never emitted the `Building project...` line, so an unparseable manifest is
never silently built as static or unknown. -/
theorem invalid_manifest_fails_install
    (pj : String → Except String Pkg) (builds : BuildsMap)
    (buildId projectId : String) (files : List ProjFile) (now : Nat)
    (bucket : List (String × String)) (b : BuildRecord) (pjc : ProjFile)
    (e : String)
    (h : buildsGet builds buildId = some b)
    (hpend : b.status = .pending)
    (hfp : files.find? (fun f => f.path == "package.json") = some pjc)
    (hparse : pj pjc.content = .error e) :
    ∃ b2, buildsGet (executeBuildRest pj
        (executeBuildPhase1 builds buildId projectId) buildId projectId files
        now bucket).1 buildId = some b2 ∧
      b2.status = .failed ∧
      b2.error = some ("Failed to parse package.json: " ++ e) ∧
      b2.completedAt = some now ∧
      b2.logs = b.logs ++
        ["Starting build for project " ++ projectId,
         "Found " ++ toString files.length ++ " files",
         "Detected project type: " ++ detectProjectType pj files,
         "Installing dependencies...",
         "ERROR: " ++ ("Failed to parse package.json: " ++ e)] := by
  have h1 : buildsGet (executeBuildPhase1 builds buildId projectId) buildId
      = some { b with
        status := .installing,
        logs := b.logs ++ ["Starting build for project " ++ projectId] } := by
    simp only [executeBuildPhase1, h]
    exact jsMapGet_put_self builds buildId _
  simp only [executeBuildRest, h1, hfp, installDependencies, hparse]
  exact ⟨_, jsMapGet_put_self _ buildId _, rfl, rfl, rfl, by simp [failWith]⟩

/-- C10 — witness: an invalid `{ oops` manifest. -/
theorem invalid_manifest_fails_install_witness :
    ∃ b2, buildsGet (executeBuildRest parseJsonDemo
        (executeBuildPhase1 [("bj", freshBuild "bj" "pJ")] "bj" "pJ") "bj"
        "pJ" badJsonFiles 9 []).1 "bj" = some b2 ∧
      b2.status = .failed ∧
      b2.error = some ("Failed to parse package.json: " ++
        "SyntaxError: Unexpected token o in JSON at position 1") ∧
      b2.completedAt = some 9 ∧
      b2.logs = [] ++
        ["Starting build for project " ++ "pJ",
         "Found " ++ toString badJsonFiles.length ++ " files",
         "Detected project type: " ++
           detectProjectType parseJsonDemo badJsonFiles,
         "Installing dependencies...",
         "ERROR: " ++ ("Failed to parse package.json: " ++
           "SyntaxError: Unexpected token o in JSON at position 1")] :=
  invalid_manifest_fails_install parseJsonDemo
    [("bj", freshBuild "bj" "pJ")] "bj" "pJ" badJsonFiles 9 []
    (freshBuild "bj" "pJ") { path := "package.json", content := "\x7b oops" }
    "SyntaxError: Unexpected token o in JSON at position 1"
    (by decide) rfl (by decide) (by decide)
